import Mathlib

/-!
Verification of the anonycast core (client / deaddrop / asset-owner triad)
against its natural-language specification.

The Rust sources are shallowly embedded: machine integers become `Nat`
(with explicit `% 2^32` where u32 wrap-around matters), fallible or
panicking code returns `Option`, and the external cryptographic
primitives (SHA-256, RSA, AES-GCM, BLSAG, BLS beacon verification) are
taken as explicit function parameters, exactly as the spec treats them
(black-box primitives with enumerated contracts).
-/

namespace Anonycast

/-- Raw byte strings (`Vec<u8>` in the source); each entry is one byte. -/
abbrev Bytes := List Nat

/-- A 32-byte SHA-256 digest (`crypto::Sha256`). -/
abbrev Sha256 := List Nat

/-- RSA public key (`crypto::PublicKey`), abstracted to its byte content. -/
abbrev PublicKey := List Nat

/-- RSA private key (`crypto::PrivateKey`), abstracted to its byte content. -/
abbrev PrivateKey := List Nat

/-- RSA PKCS#1-v1.5 signature (`crypto::Signature`). -/
abbrev CryptoSignature := List Nat

/-- BLSAG ring identity (`crypto::RingPublicKey`), abstracted to its
32-byte compressed-point content. -/
abbrev RingPublicKey := List Nat

/-- BLSAG ring private key (`crypto::RingPrivateKey`). -/
abbrev RingPrivateKey := List Nat

/-- drand beacon (`drand::Beacon`). -/
structure Beacon where
  round_number : Nat
  randomness : Bytes
  signature : Bytes
  previous_signature : Bytes
deriving DecidableEq, Repr

/-- drand scheme identifier (`drand::SchemeId`). -/
inductive SchemeId where
  | PedersenBlsChained
  | PedersenBlsUnchained
  | UnchainedOnG1
  | UnchainedOnG1RFC9380
deriving DecidableEq, Repr

/-- drand chain metadata (`drand::ChainInfoMetadata`). -/
structure ChainInfoMetadata where
  beacon_id : String
deriving DecidableEq, Repr

/-- drand chain description (`drand::ChainInfo`). -/
structure ChainInfo where
  scheme_id : SchemeId
  public_key : Bytes
  chain_hash : Bytes
  group_hash : Bytes
  genesis_time : Nat
  period_seconds : Nat
  metadata : ChainInfoMetadata
deriving DecidableEq, Repr

/-- Little-endian byte decomposition of a 32-bit value: `u32::to_le_bytes`
applied to `n % 2^32`. -/
def u32le (n : Nat) : Bytes :=
  [n % 256, n / 256 % 256, n / 65536 % 256, n / 16777216 % 256]

/-- The hasher input assembled by both puzzle routines in
`anonycast/src/lib.rs`: `data ‖ beacon.signature ‖ LE32(nonce)`. -/
def puzzleInput (data : Bytes) (beacon : Beacon) (nonce : Nat) : Bytes :=
  data ++ beacon.signature ++ u32le nonce

/-- The byte scan of `crypto_puzzle_verify` (`anonycast/src/lib.rs:95-107`):
iterate over the digest bytes; on each byte, if the remaining-bits counter
is zero return `true`; otherwise consume `min 8 counter` bits by checking
`byte & (0xFF >> (8 - to_verify)) == 0`; if the digest is exhausted
return `true`. -/
def verifyScan : List Nat → Nat → Bool
  | [], _ => true
  | b :: rest, counter =>
    if counter = 0 then true
    else
      let to_verify := min 8 counter
      let compare := 255 >>> (8 - to_verify)
      if b &&& compare ≠ 0 then false else verifyScan rest (counter - to_verify)

/-- The byte scan of the inner loop of `crypto_puzzle_solve`
(`anonycast/src/lib.rs:66-85`). It differs from `verifyScan` in the
exhaustion case: `return nonce` only happens at a byte whose iteration
starts with the counter already zero, so running out of digest bytes is a
failure (the nonce is advanced), not a success. -/
def solveScan : List Nat → Nat → Bool
  | [], _ => false
  | b :: rest, counter =>
    if counter = 0 then true
    else
      let to_verify := min 8 counter
      let compare := 255 >>> (8 - to_verify)
      if b &&& compare ≠ 0 then false else solveScan rest (counter - to_verify)

/-- Proof-of-work verification `crypto_puzzle_verify(data, beacon,
difficulty, solution)` from `anonycast/src/lib.rs:89-108`, parameterized
by the SHA-256 primitive `h`. -/
def crypto_puzzle_verify (h : Bytes → Bytes) (data : Bytes) (beacon : Beacon)
    (difficulty : Nat) (solution : Nat) : Bool :=
  verifyScan (h (puzzleInput data beacon solution)) difficulty

/-- One pass of the outer loop of `crypto_puzzle_solve`
(`anonycast/src/lib.rs:63-86`): try the current nonce; on failure advance
to `(nonce + 1) % 2^32` (the u32 increment wraps). The source loop has no
exit on failure, so the embedding carries a fuel argument; `none` means
the loop was still running when the fuel ran out. -/
def crypto_puzzle_solveAux (h : Bytes → Bytes) (data : Bytes) (beacon : Beacon)
    (difficulty : Nat) : Nat → Nat → Option Nat
  | 0, _ => none
  | fuel + 1, nonce =>
    if solveScan (h (puzzleInput data beacon nonce)) difficulty then some nonce
    else crypto_puzzle_solveAux h data beacon difficulty fuel ((nonce + 1) % 4294967296)

/-- Proof-of-work search `crypto_puzzle_solve(data, beacon, difficulty)`
from `anonycast/src/lib.rs:63-86`, starting from nonce `0`. -/
def crypto_puzzle_solve (h : Bytes → Bytes) (data : Bytes) (beacon : Beacon)
    (difficulty : Nat) (fuel : Nat) : Option Nat :=
  crypto_puzzle_solveAux h data beacon difficulty fuel 0

/-- The leading-zero predicate in the words of the specification (§4.2):
the digest has at least `difficulty` leading zero bits, scanned
byte-by-byte, where the mask applied to the last partially-consumed byte
is `0xFF >> (8 - remaining_bits)` and every earlier consumed byte is
checked against the full mask `0xFF`. -/
def specLeadingZero (difficulty : Nat) (digest : List Nat) : Bool :=
  (List.range ((difficulty + 7) / 8)).all fun i =>
    let remaining := difficulty - 8 * i
    let mask := if 8 ≤ remaining then 255 else 255 >>> (8 - remaining)
    digest.getD i 0 &&& mask = 0

/-- BLSAG signature body (`nazgul::blsag::BLSAG` as re-exposed through
`crypto::RingSignature`): challenge scalar, per-member response scalars,
the embedded ring, and the key image. Scalars and points are abstracted
to their byte content. -/
structure BLSAGSig where
  challenge : Bytes
  responses : List Bytes
  ring : List RingPublicKey
  key_image : Bytes
deriving DecidableEq, Repr

/-- Ring of BLSAG identities (`crypto::Ring`, a newtype over
`Vec<RingPublicKey>`). -/
structure Ring where
  keys : List RingPublicKey
deriving DecidableEq, Repr

/-- `Ring::from(Vec<RingPublicKey>)` (`crypto/src/blsag.rs:16-20`). -/
def Ring.from (keys : List RingPublicKey) : Ring := ⟨keys⟩

/-- `Ring::default()`: the empty ring. -/
def Ring.default : Ring := ⟨[]⟩

/-- The constant `SECRET_INDEX` of `crypto/src/blsag.rs:11`. -/
def SECRET_INDEX : Nat := 1

/-- `crypto::ring_sign` (`crypto/src/blsag.rs:224-240`): drop every
occurrence of the signer's public key from the ring, then call the
external `BLSAG::sign` primitive (parameter `blsagSign`) with the
filtered ring and `SECRET_INDEX`. `ringPub` is the external
scalar-to-point primitive `RingPrivateKey::public_key`. -/
def ring_sign (ringPub : RingPrivateKey → RingPublicKey)
    (blsagSign : RingPrivateKey → List RingPublicKey → Nat → Bytes → BLSAGSig)
    (key : RingPrivateKey) (ring : Ring) (data : Bytes) : BLSAGSig :=
  let signer_pk := ringPub key
  let filtered := ring.keys.filter fun pk => pk ≠ signer_pk
  blsagSign key filtered SECRET_INDEX data

/-- `crypto::ring_verify` (`crypto/src/blsag.rs:242-255`): reject unless
the verification ring and the signature's embedded ring have equal length
and every verification-ring key occurs in the embedded ring; then defer
to the external `BLSAG::verify` primitive (parameter `blsagVerify`). -/
def ring_verify (blsagVerify : BLSAGSig → Bytes → Bool)
    (ring : Ring) (data : Bytes) (signature : BLSAGSig) : Bool :=
  if ring.keys.length ≠ signature.ring.length
      || !(ring.keys.all fun pk => signature.ring.contains pk) then
    false
  else
    blsagVerify signature data

/-- AES-256-GCM key (`crypto::SymmetricKey`), abstracted to its 32-byte
content. -/
abbrev SymmetricKey := List Nat

/-- AES-256-GCM nonce-plus-ciphertext pair (`crypto::SymmetricData`). -/
structure SymmetricData where
  nonce : Bytes
  data : Bytes
deriving DecidableEq, Repr

/-- `anonycast::document::DocumentId`. -/
structure DocumentId where
  round : Nat
  content_hash : Sha256
  public_key_hash : Sha256
deriving DecidableEq, Repr

/-- `anonycast::document::DocumentKeyPair`: a receiver public key paired
with the symmetric key wrapped under it. -/
structure DocumentKeyPair where
  public_key : PublicKey
  symmetric_key : Bytes
deriving DecidableEq, Repr

/-- `anonycast::document::DocumentContent`. -/
inductive DocumentContent where
  | Plaintext (data : Bytes)
  | Encrypted (data : SymmetricData) (keys : List DocumentKeyPair)
deriving DecidableEq, Repr

/-- `DocumentContent::data` (`anonycast/src/document.rs:32-38`): the
plaintext bytes, or the ciphertext bytes of the encrypted body. -/
def DocumentContent.data : DocumentContent → Bytes
  | .Plaintext plaintext => plaintext
  | .Encrypted d _ => d.data

/-- `anonycast::document::DocumentDrand`. -/
structure DocumentDrand where
  chain : String
  beacon : Beacon
  scheme : SchemeId
deriving DecidableEq, Repr

/-- `anonycast::document::Document`. -/
structure Document where
  id : DocumentId
  topic : String
  content : DocumentContent
  crypto_difficulty : Nat
  nonce_solution : Nat
  drand : DocumentDrand
deriving DecidableEq, Repr

/-- `Document::new` (`anonycast/src/document.rs:58-83`): hash the content
bytes with SHA-256 (`h`), take the round from the drand beacon, and run
the puzzle solver at the given difficulty. The solver loop carries fuel
(see `crypto_puzzle_solveAux`), so the constructor is `none` when the
solver was still searching at fuel exhaustion. -/
def Document.new (h : Bytes → Bytes) (topic : String) (content : DocumentContent)
    (difficulty : Nat) (public_key_hash : Sha256) (drand : DocumentDrand)
    (fuel : Nat) : Option Document :=
  let content_hash := h content.data
  let round := drand.beacon.round_number
  (crypto_puzzle_solve h content.data drand.beacon difficulty fuel).map fun solution =>
    { id := { round := round, content_hash := content_hash,
              public_key_hash := public_key_hash }
      topic := topic
      content := content
      crypto_difficulty := difficulty
      nonce_solution := solution
      drand := drand }

/-- `Document::plaintext` (`anonycast/src/document.rs:85-99`). -/
def Document.plaintext (h : Bytes → Bytes) (topic : String) (data : Bytes)
    (difficulty : Nat) (public_key_hash : Sha256) (drand : DocumentDrand)
    (fuel : Nat) : Option Document :=
  Document.new h topic (DocumentContent.Plaintext data) difficulty public_key_hash
    drand fuel

/-- `Document::encrypted` (`anonycast/src/document.rs:101-125`): wrap the
fresh symmetric key `skey` (drawn by `crypto::symmetric_generate`, here an
explicit parameter) under each receiver public key with the external RSA
primitive `rsaEncrypt`, encrypt the body with the external AES-256-GCM
primitive `symEncrypt`, and build the document over the pair list. -/
def Document.encrypted (h : Bytes → Bytes)
    (rsaEncrypt : PublicKey → Bytes → Bytes)
    (symEncrypt : SymmetricKey → Bytes → SymmetricData)
    (topic : String) (data : Bytes) (difficulty : Nat) (public_key_hash : Sha256)
    (receiver_keys : List PublicKey) (drand : DocumentDrand) (skey : SymmetricKey)
    (fuel : Nat) : Option Document :=
  let pairs := receiver_keys.map fun key =>
    DocumentKeyPair.mk key (rsaEncrypt key skey)
  let encrypted_data := symEncrypt skey data
  Document.new h topic (DocumentContent.Encrypted encrypted_data pairs) difficulty
    public_key_hash drand fuel

/-- `Document::decrypt` (`anonycast/src/document.rs:127-148`): plaintext
documents succeed unchanged; encrypted documents look up the first key
pair whose public key equals this private key's public key (`rsaPub`),
returning `false` and leaving the document unchanged when none matches,
and otherwise RSA-unwrapping the symmetric key (`rsaDecrypt`), AES-GCM
decrypting the body (`symDecrypt`) and replacing the content with the
plaintext. Returns the flag together with the (possibly updated)
document, mirroring `&mut self`. -/
def Document.decrypt (rsaPub : PrivateKey → PublicKey)
    (rsaDecrypt : PrivateKey → Bytes → Bytes)
    (symDecrypt : SymmetricKey → SymmetricData → Bytes)
    (doc : Document) (key : PrivateKey) : Bool × Document :=
  let public_key := rsaPub key
  match doc.content with
  | .Plaintext _ => (true, doc)
  | .Encrypted data keys =>
    match keys.find? (fun p => p.public_key = public_key) with
    | none => (false, doc)
    | some pair =>
      let skey := rsaDecrypt key pair.symmetric_key
      (true, { doc with content := DocumentContent.Plaintext (symDecrypt skey data) })

/-- `Document::is_valid` (`anonycast/src/document.rs:150-191`):
admission check against the server's configured difficulty, the chain
info, and the freshly fetched current beacon. `beaconVerify` is the
external `drand::Beacon::verify` primitive. Note the beacon whose
signature is verified is the `drand_beacon` argument, while the puzzle
and the round comparison use the document's own beacon. -/
def Document.is_valid (h : Bytes → Bytes)
    (beaconVerify : Beacon → SchemeId → Bytes → Bool)
    (doc : Document) (expected_difficulty : Nat) (acceptance_window : Nat)
    (drand_chain : ChainInfo) (drand_beacon : Beacon) : Bool :=
  if !crypto_puzzle_verify h doc.content.data doc.drand.beacon
      doc.crypto_difficulty doc.nonce_solution then
    false
  else if doc.crypto_difficulty ≠ expected_difficulty then
    false
  else if !beaconVerify drand_beacon drand_chain.scheme_id drand_chain.public_key then
    false
  else if acceptance_window ≠ 0
      && doc.drand.beacon.round_number + acceptance_window ≤ drand_beacon.round_number then
    false
  else
    true

/-- Envelope signature variants (`anonycast::protocol::Signature`). -/
inductive Signature where
  | Asymmetric (key : PublicKey) (signature : CryptoSignature)
  | RingAsymmetric (signature : BLSAGSig)
deriving DecidableEq, Repr

/-- The universal envelope `anonycast::protocol::Signed<T>`. -/
structure Signed (T : Type) where
  content : T
  signature : Signature
deriving DecidableEq, Repr

/-- `Signed::new` (`anonycast/src/protocol.rs:39-41`). -/
def Signed.new {T : Type} (content : T) (signature : Signature) : Signed T :=
  ⟨content, signature⟩

/-- `Signed::verify` (`anonycast/src/protocol.rs:72-82`): false on a ring
variant, otherwise check the embedded key against `serialize(content)`
with the external RSA primitive `rsaVerify`; `ser` is the canonical
bincode serializer `serialize_for_signature`. -/
def Signed.verify {T : Type} (rsaVerify : PublicKey → Bytes → CryptoSignature → Bool)
    (ser : T → Bytes) (s : Signed T) : Bool :=
  match s.signature with
  | .Asymmetric key signature => rsaVerify key (ser s.content) signature
  | .RingAsymmetric _ => false

/-- `Signed::verify_with` (`anonycast/src/protocol.rs:84-97`): as
`verify`, additionally requiring the embedded key to equal the expected
key. -/
def Signed.verify_with {T : Type} (rsaVerify : PublicKey → Bytes → CryptoSignature → Bool)
    (ser : T → Bytes) (s : Signed T) (key : PublicKey) : Bool :=
  match s.signature with
  | .Asymmetric signature_key signature =>
    if key ≠ signature_key then false
    else rsaVerify key (ser s.content) signature
  | .RingAsymmetric _ => false

/-- `Signed::ring_verify` (`anonycast/src/protocol.rs:99-106`): false on
an asymmetric variant, otherwise `crypto::ring_verify` against the given
ring. -/
def Signed.ring_verify {T : Type} (blsagVerify : BLSAGSig → Bytes → Bool)
    (ser : T → Bytes) (s : Signed T) (ring : Ring) : Bool :=
  match s.signature with
  | .Asymmetric _ _ => false
  | .RingAsymmetric signature =>
    Anonycast.ring_verify blsagVerify ring (ser s.content) signature

/-- `anonycast::protocol::RetrieveDocumentIds`. -/
structure RetrieveDocumentIds where
  topic : String
  since_round : Nat
  beacon : Beacon
  chain : String
  nonce_solution : Nat
deriving DecidableEq, Repr

/-- `anonycast::protocol::RetrieveDocuments`. -/
structure RetrieveDocuments where
  message_ids : List DocumentId
  beacon : Beacon
  chain : String
  nonce_solution : Nat
deriving DecidableEq, Repr

/-- `anonycast::protocol::PublishDocument`. -/
structure PublishDocument where
  document : Signed Document
deriving DecidableEq, Repr

/-- `anonycast::protocol::UpdateAllowedKeys`. -/
structure UpdateAllowedKeys where
  allowed_sender_keys : List RingPublicKey
  allowed_receiver_keys : List PublicKey
  beacon : Beacon
deriving DecidableEq, Repr

/-- `anonycast::protocol::DocumentIdList`. -/
structure DocumentIdList where
  message_ids : List DocumentId
  allowed_sender_keys : Option (Signed UpdateAllowedKeys)
deriving DecidableEq, Repr

/-- `anonycast::protocol::DocumentList`. -/
structure DocumentList where
  documents : List (Signed Document)
deriving DecidableEq, Repr

/-- `anonycast::protocol::Message`. -/
inductive Message where
  | Success
  | RetrieveDocumentIds (v : RetrieveDocumentIds)
  | RetrieveDocuments (v : RetrieveDocuments)
  | PublishDocument (v : PublishDocument)
  | DocumentIdList (v : DocumentIdList)
  | DocumentList (v : DocumentList)
  | UpdateAllowedKeys (v : UpdateAllowedKeys)
  | RetrieveKeys
deriving DecidableEq, Repr

/-- `anonycast::ModeOfOperation`. -/
inductive ModeOfOperation where
  | Open
  | SenderRestricted
  | ReceiverRestricted
  | FullyRestricted
deriving DecidableEq, Repr

/-- Insertion into an association-list model of
`HashMap<DocumentId, Signed<Document>>`: replace the binding when the key
is present, append it otherwise (the overwrite semantics of
`HashMap::insert`). -/
def mapInsert {K V : Type} [DecidableEq K] (k : K) (v : V) :
    List (K × V) → List (K × V)
  | [] => [(k, v)]
  | (k1, v1) :: rest =>
    if k1 = k then (k, v) :: rest else (k1, v1) :: mapInsert k v rest

/-- Lookup in the association-list map model (`HashMap::get`). -/
def mapLookup {K V : Type} [DecidableEq K] (k : K) : List (K × V) → Option V
  | [] => none
  | (k1, v1) :: rest => if k1 = k then some v1 else mapLookup k rest

/-- The mutable deaddrop state behind the reader-writer lock
(`anonycast::deaddrop::StateMut`, `deaddrop.rs:51-56`); the hash map of
published documents is modelled as an association list. -/
structure StateMut where
  published_documents : List (DocumentId × Signed Document)
  allowed_sender_ring : Ring
  allowed_receiver_keys : List PublicKey
  keys_update_asset_owner : Option (Signed UpdateAllowedKeys)
deriving DecidableEq, Repr

/-- The per-process deaddrop state (`anonycast::deaddrop::State`,
`deaddrop.rs:40-49`), with the lock flattened away and the drand client
and cached success response (pure I/O plumbing) omitted. -/
structure State where
  mode : ModeOfOperation
  private_key : PrivateKey
  asset_owner_key : Option PublicKey
  difficulty : Nat
  acceptance_window : Nat
  state_mut : StateMut
deriving DecidableEq, Repr

/-- The initial mutable state built in `deaddrop::run`
(`deaddrop.rs:231-236`): no documents, the default (empty) ring, no
receiver keys, no cached asset-owner update. -/
def initStateMut : StateMut :=
  { published_documents := []
    allowed_sender_ring := Ring.default
    allowed_receiver_keys := []
    keys_update_asset_owner := none }

/-- `verify_signature` (`deaddrop.rs:436-466`). Returns `none` for the
`DocumentIdList` / `DocumentList` / `Success` arms, whose source is
`unreachable!` (a panic). `serMsg` is the canonical `Message` serializer
used by the envelope operations. -/
def verify_signature (rsaVerify : PublicKey → Bytes → CryptoSignature → Bool)
    (blsagVerify : BLSAGSig → Bytes → Bool) (serMsg : Message → Bytes)
    (state : State) (signed_message : Signed Message) : Option Bool :=
  match signed_message.content with
  | .UpdateAllowedKeys _ =>
    match state.asset_owner_key with
    | some asset_owner_key =>
      some (signed_message.verify_with rsaVerify serMsg asset_owner_key)
    | none => some false
  | .PublishDocument _ =>
    match state.mode with
    | .Open | .ReceiverRestricted => some (signed_message.verify rsaVerify serMsg)
    | .SenderRestricted | .FullyRestricted =>
      some (signed_message.ring_verify blsagVerify serMsg
        state.state_mut.allowed_sender_ring)
  | .DocumentIdList _ | .DocumentList _ | .Success => none
  | .RetrieveDocumentIds _ | .RetrieveDocuments _ | .RetrieveKeys =>
    some (signed_message.verify rsaVerify serMsg
      || signed_message.ring_verify blsagVerify serMsg
          state.state_mut.allowed_sender_ring)

/-- `retreive_document_ids` (`deaddrop.rs:470-505`): reject (`none`) on a
stale request beacon or an invalid empty-data puzzle solution; otherwise
collect the id of every stored document whose round is at least
`since_round`, and attach the cached asset-owner update in the
sender-restricted modes. `beacon` is the current beacon fetched by the
connection handler for the requested chain. -/
def retreive_document_ids (h : Bytes → Bytes) (state : State)
    (request : RetrieveDocumentIds) (beacon : Beacon) :
    Option (List DocumentId × Option (Signed UpdateAllowedKeys)) :=
  if state.acceptance_window ≠ 0
      && request.beacon.round_number + state.acceptance_window ≤ beacon.round_number then
    none
  else if !crypto_puzzle_verify h [] request.beacon state.difficulty
      request.nonce_solution then
    none
  else
    let document_ids :=
      ((state.state_mut.published_documents.map Prod.snd).filter fun signed_document =>
        signed_document.content.id.round ≥ request.since_round).map fun signed_document =>
          signed_document.content.id
    let allowed_sender_keys :=
      match state.mode with
      | .Open | .ReceiverRestricted => none
      | .FullyRestricted | .SenderRestricted => state.state_mut.keys_update_asset_owner
    some (document_ids, allowed_sender_keys)

/-- `publish_document` (`deaddrop.rs:547-570`): reject and leave the
state untouched when the document fails `is_valid` against the server's
difficulty and acceptance window; otherwise insert the signed document
under its id (overwriting any previous binding) and report success. -/
def publish_document (h : Bytes → Bytes)
    (beaconVerify : Beacon → SchemeId → Bytes → Bool) (state : State)
    (request : PublishDocument) (document_chain : ChainInfo)
    (document_beacon : Beacon) : Bool × State :=
  if !request.document.content.is_valid h beaconVerify state.difficulty
      state.acceptance_window document_chain document_beacon then
    (false, state)
  else
    let documents := mapInsert request.document.content.id request.document
      state.state_mut.published_documents
    (true,
      { state with state_mut :=
          { state.state_mut with published_documents := documents } })

/-- The body of `handle_update_allowed_keys` after the write lock is
taken (`deaddrop.rs:430-433`): replace the ring, the receiver keys and
the cached signed update together. -/
def applyAllowedKeysUpdate (state : State) (update : Signed UpdateAllowedKeys) : State :=
  { state with state_mut :=
      { state.state_mut with
          allowed_sender_ring := Ring.from update.content.allowed_sender_keys
          allowed_receiver_keys := update.content.allowed_receiver_keys
          keys_update_asset_owner := some update } }

/-- `handle_update_allowed_keys` (`deaddrop.rs:411-434`): the freshness
check computes `current_round - generated_in_round` with u64 subtraction,
which panics on underflow (modelled as `none`) when the update's beacon
round is ahead of the freshly fetched `current_round`; a stale update is
dropped without a state change; otherwise the update is applied. -/
def handle_update_allowed_keys (state : State) (update : Signed UpdateAllowedKeys)
    (current_round : Nat) : Option State :=
  let generated_in_round := update.content.beacon.round_number
  if generated_in_round > current_round then
    none
  else if current_round - generated_in_round > state.acceptance_window then
    some state
  else
    some (applyAllowedKeysUpdate state update)

/-- The deaddrop state built at the top of `deaddrop::run`
(`deaddrop.rs:223-237`) from its configuration, before the optional
startup `asset_owner_update` is handled. -/
def initState (mode : ModeOfOperation) (private_key : PrivateKey)
    (asset_owner_key : Option PublicKey) (difficulty : Nat)
    (acceptance_window : Nat) : State :=
  { mode := mode
    private_key := private_key
    asset_owner_key := asset_owner_key
    difficulty := difficulty
    acceptance_window := acceptance_window
    state_mut := initStateMut }

/-- The allowed-keys consistency invariant of claim C9: whenever a
signed update is cached, the current ring and receiver keys are exactly
the ones carried by that update. -/
def keysInv (m : StateMut) : Prop :=
  ∀ u, m.keys_update_asset_owner = some u →
    m.allowed_sender_ring = Ring.from u.content.allowed_sender_keys
    ∧ m.allowed_receiver_keys = u.content.allowed_receiver_keys

/-- The state-mutating operations of the deaddrop: a publish (for any
primitives, request, chain and beacon) or a non-panicking allowed-keys
update. The retrieval handlers only read the state, so they have no
step. -/
inductive DeaddropStep : State → State → Prop where
  | publish (h : Bytes → Bytes) (bv : Beacon → SchemeId → Bytes → Bool)
      (request : PublishDocument) (chain : ChainInfo) (beacon : Beacon) (s : State) :
      DeaddropStep s (publish_document h bv s request chain beacon).2
  | update (u : Signed UpdateAllowedKeys) (cur : Nat) (s s2 : State) :
      handle_update_allowed_keys s u cur = some s2 → DeaddropStep s s2

/-- Reachability through deaddrop mutator steps. -/
inductive DeaddropReachable (a : State) : State → Prop where
  | refl : DeaddropReachable a a
  | step {b c : State} : DeaddropReachable a b → DeaddropStep b c → DeaddropReachable a c

/-- The admission predicate exactly as claim C1 words it: the puzzle
verifies at the document's own difficulty, the difficulty equals the
expected one, the DOCUMENT'S OWN beacon verifies under the chain's
scheme id and public key, and the window is zero or the document's round
plus the window exceeds the current beacon's round. This is the
spec-side predicate to compare with `Document.is_valid`. -/
def claimC1Pred (h : Bytes → Bytes) (beaconVerify : Beacon → SchemeId → Bytes → Bool)
    (doc : Document) (expected_difficulty : Nat) (acceptance_window : Nat)
    (chain : ChainInfo) (current_beacon : Beacon) : Bool :=
  crypto_puzzle_verify h doc.content.data doc.drand.beacon doc.crypto_difficulty
      doc.nonce_solution
    && decide (doc.crypto_difficulty = expected_difficulty)
    && beaconVerify doc.drand.beacon chain.scheme_id chain.public_key
    && (decide (acceptance_window = 0)
        || decide (current_beacon.round_number
            < doc.drand.beacon.round_number + acceptance_window))

/-- Constant all-zero digest, standing in for SHA-256 in concrete
witnesses (the primitive is a black box; any 32-byte-valued function is
an admissible instance). -/
def hZero : Bytes → Bytes := fun _ => List.replicate 32 0

/-- A fixed sample beacon for witnesses (round 1). -/
def beacon0 : Beacon := ⟨1, [], [], []⟩

/-- A fixed sample chain description for witnesses. -/
def chain0 : ChainInfo := ⟨.PedersenBlsUnchained, [], [], [], 0, 30, ⟨"default"⟩⟩

/-- A beacon-verification instance that accepts exactly the beacons of
round 1 (a black-box primitive may distinguish beacons arbitrarily). -/
def bvRound1 : Beacon → SchemeId → Bytes → Bool := fun b _ _ => decide (b.round_number = 1)

/-- A sample document carrying a round-5 beacon, zero difficulty and an
empty plaintext. -/
def doc0 : Document :=
  { id := ⟨5, [], []⟩
    topic := "t"
    content := .Plaintext []
    crypto_difficulty := 0
    nonce_solution := 0
    drand := ⟨"default", ⟨5, [], [], []⟩, .PedersenBlsUnchained⟩ }

/-- A sample deaddrop state: open mode, difficulty 0, acceptance window
0, no asset-owner key, initial mutable state. -/
def s0 : State :=
  { mode := .Open
    private_key := []
    asset_owner_key := none
    difficulty := 0
    acceptance_window := 0
    state_mut := initStateMut }

/-- A sample signed allowed-keys update carrying a round-5 beacon. -/
def u0 : Signed UpdateAllowedKeys :=
  ⟨⟨[], [], ⟨5, [], [], []⟩⟩, .Asymmetric [] []⟩

theorem div8_step {d : Nat} (hd : 0 < d) :
    (d + 7) / 8 = (d - min 8 d + 7) / 8 + 1 := by
  rcases Nat.le_total 8 d with hc | hc
  · rw [Nat.min_eq_left hc]; omega
  · rw [Nat.min_eq_right hc]; omega

theorem specLeadingZero_nil (d : Nat) : specLeadingZero d [] = true := by
  simp [specLeadingZero, List.all_eq_true]

theorem specLeadingZero_cons {d : Nat} (hd : 0 < d) (b : Nat) (rest : List Nat) :
    specLeadingZero d (b :: rest) =
      (decide (b &&& (if 8 ≤ d then 255 else 255 >>> (8 - d)) = 0)
        && specLeadingZero (d - min 8 d) rest) := by
  unfold specLeadingZero
  rw [div8_step hd, List.range_succ_eq_map, List.all_cons, List.all_map]
  congr 1
  congr 1
  funext i
  have hrem : d - 8 * (i + 1) = d - min 8 d - 8 * i := by
    rcases Nat.le_total 8 d with hc | hc
    · rw [Nat.min_eq_left hc]; omega
    · rw [Nat.min_eq_right hc]; omega
  simp [Function.comp, Nat.succ_eq_add_one, hrem]

theorem verifyScan_eq_spec (bytes : List Nat) :
    ∀ d, verifyScan bytes d = specLeadingZero d bytes := by
  induction bytes with
  | nil =>
    intro d
    simp [verifyScan, specLeadingZero_nil]
  | cons b rest ih =>
    intro d
    rcases Nat.eq_zero_or_pos d with hd | hd
    · subst hd
      simp [verifyScan, specLeadingZero]
    · rw [specLeadingZero_cons hd]
      have hne : d ≠ 0 := Nat.pos_iff_ne_zero.mp hd
      have hmask : 255 >>> (8 - min 8 d) = if 8 ≤ d then 255 else 255 >>> (8 - d) := by
        rcases Nat.le_total 8 d with hc | hc
        · rw [Nat.min_eq_left hc, if_pos hc]
          decide
        · rcases Nat.lt_or_ge d 8 with hlt | hlt
          · rw [Nat.min_eq_right (Nat.le_of_lt hlt), if_neg (Nat.not_le.mpr hlt)]
          · have hd8 : d = 8 := Nat.le_antisymm hc hlt
            subst hd8
            rfl
      by_cases hb : b &&& (255 >>> (8 - min 8 d)) = 0
      · have hb2 : b &&& (if 8 ≤ d then 255 else 255 >>> (8 - d)) = 0 := by
          rw [← hmask]; exact hb
        simp [verifyScan, hne, hb, hb2, ih]
      · have hb2 : ¬ (b &&& (if 8 ≤ d then 255 else 255 >>> (8 - d)) = 0) := by
          rw [← hmask]; exact hb
        simp [verifyScan, hne, hb, hb2]

theorem solveScan_imp_verifyScan (bytes : List Nat) :
    ∀ d, solveScan bytes d = true → verifyScan bytes d = true := by
  induction bytes with
  | nil => intro d h; simp [solveScan] at h
  | cons b rest ih =>
    intro d h
    by_cases hd : d = 0
    · simp [verifyScan, hd]
    · by_cases hb : b &&& (255 >>> (8 - min 8 d)) = 0
      · simp only [solveScan, hd, if_false, hb, ne_eq, not_true_eq_false] at h
        simp only [verifyScan, hd, if_false, hb, ne_eq, not_true_eq_false]
        exact ih _ h
      · simp [solveScan, hd, hb] at h

theorem solveScan_bound (bytes : List Nat) :
    ∀ d, solveScan bytes d = true → (d + 7) / 8 < bytes.length := by
  induction bytes with
  | nil => intro d h; simp [solveScan] at h
  | cons b rest ih =>
    intro d h
    by_cases hd : d = 0
    · subst hd; simp
    · have hpos : 0 < d := Nat.pos_of_ne_zero hd
      by_cases hb : b &&& (255 >>> (8 - min 8 d)) = 0
      · simp only [solveScan, hd, if_false, hb, ne_eq, not_true_eq_false] at h
        have htail := ih _ (by simpa using h)
        rw [div8_step hpos]
        simpa using Nat.succ_lt_succ htail
      · simp [solveScan, hd, hb] at h

theorem solveScan_eq_verifyScan_of_lt (bytes : List Nat) :
    ∀ d, (d + 7) / 8 < bytes.length → solveScan bytes d = verifyScan bytes d := by
  induction bytes with
  | nil => intro d h; simp at h
  | cons b rest ih =>
    intro d h
    by_cases hd : d = 0
    · simp [solveScan, verifyScan, hd]
    · have hpos : 0 < d := Nat.pos_of_ne_zero hd
      by_cases hb : b &&& (255 >>> (8 - min 8 d)) = 0
      · have htail : (d - min 8 d + 7) / 8 < rest.length := by
          rw [div8_step hpos] at h
          simpa using Nat.lt_of_succ_lt_succ h
        simp [solveScan, verifyScan, hd, hb, ih _ htail]
      · simp [solveScan, verifyScan, hd, hb]

theorem crypto_puzzle_solveAux_min (h : Bytes → Bytes) (data : Bytes) (beacon : Beacon)
    (difficulty : Nat) :
    ∀ fuel start n, start < 4294967296 →
      (∀ m, m < start → solveScan (h (puzzleInput data beacon m)) difficulty = false) →
      crypto_puzzle_solveAux h data beacon difficulty fuel start = some n →
      n < 4294967296 ∧ solveScan (h (puzzleInput data beacon n)) difficulty = true
        ∧ ∀ m, m < n → solveScan (h (puzzleInput data beacon m)) difficulty = false := by
  intro fuel
  induction fuel with
  | zero =>
    intro start n _ _ heq
    simp [crypto_puzzle_solveAux] at heq
  | succ fuel ih =>
    intro start n hlt hmin heq
    by_cases hsc : solveScan (h (puzzleInput data beacon start)) difficulty = true
    · have hn : start = n := by
        simpa [crypto_puzzle_solveAux, hsc] using heq
      subst hn
      exact ⟨hlt, hsc, hmin⟩
    · have heq2 : crypto_puzzle_solveAux h data beacon difficulty fuel
          ((start + 1) % 4294967296) = some n := by
        simpa [crypto_puzzle_solveAux, hsc] using heq
      refine ih ((start + 1) % 4294967296) n (Nat.mod_lt _ (by norm_num)) ?_ heq2
      intro m hm
      rcases Nat.lt_or_ge (start + 1) 4294967296 with hcase | hcase
      · rw [Nat.mod_eq_of_lt hcase] at hm
        rcases Nat.lt_succ_iff_lt_or_eq.mp hm with h1 | h1
        · exact hmin m h1
        · subst h1
          exact Bool.not_eq_true _ ▸ (Bool.eq_false_iff.mpr hsc)
      · have hz : (start + 1) % 4294967296 = 0 := by omega
        rw [hz] at hm
        omega

/-- C4: for every data, beacon and difficulty, `crypto_puzzle_verify`
returns true exactly when the SHA-256 digest of
`data ‖ beacon.signature ‖ LE32(nonce)` satisfies the leading-zero
predicate scanned byte-by-byte with mask `0xFF >> (8 - remaining_bits)`
on the last partially-consumed byte; and whenever `crypto_puzzle_solve`
returns a nonce, that nonce is the smallest non-negative 32-bit nonce
satisfying the predicate, so `crypto_puzzle_verify` accepts it. The
SHA-256 primitive `h` is abstract except for its 32-byte digest length. -/
theorem C4_crypto_puzzle (h : Bytes → Bytes) (hlen : ∀ x, (h x).length = 32) :
    (∀ data beacon difficulty solution,
      crypto_puzzle_verify h data beacon difficulty solution =
        specLeadingZero difficulty (h (puzzleInput data beacon solution)))
    ∧ (∀ data beacon difficulty fuel n,
        crypto_puzzle_solve h data beacon difficulty fuel = some n →
        crypto_puzzle_verify h data beacon difficulty n = true
        ∧ n < 4294967296
        ∧ ∀ m, m < n →
            specLeadingZero difficulty (h (puzzleInput data beacon m)) = false) := by
  constructor
  · intro data beacon difficulty solution
    exact verifyScan_eq_spec _ difficulty
  · intro data beacon difficulty fuel n hsolve
    obtain ⟨hn32, hok, hmin⟩ :=
      crypto_puzzle_solveAux_min h data beacon difficulty fuel 0 n (by norm_num)
        (by intro m hm; omega) hsolve
    have hverify : crypto_puzzle_verify h data beacon difficulty n = true :=
      solveScan_imp_verifyScan _ _ hok
    refine ⟨hverify, hn32, ?_⟩
    intro m hm
    have hbound : (difficulty + 7) / 8 < (h (puzzleInput data beacon n)).length :=
      solveScan_bound _ _ hok
    rw [hlen] at hbound
    have hlt : (difficulty + 7) / 8 < (h (puzzleInput data beacon m)).length := by
      rw [hlen]; exact hbound
    have := solveScan_eq_verifyScan_of_lt (h (puzzleInput data beacon m)) difficulty hlt
    rw [← verifyScan_eq_spec, ← this]
    exact hmin m hm

/-- Witness for C4 at the all-zero digest function: difficulty 8 is
solved immediately at nonce 0, which the verifier accepts, and the
equivalence with the spec predicate holds at a sample input. -/
theorem C4_crypto_puzzle_witness :
    crypto_puzzle_verify hZero [] beacon0 8 3 =
      specLeadingZero 8 (hZero (puzzleInput [] beacon0 3))
    ∧ crypto_puzzle_verify hZero [] beacon0 8 0 = true :=
  ⟨(C4_crypto_puzzle hZero (fun _ => rfl)).1 [] beacon0 8 3,
    ((C4_crypto_puzzle hZero (fun _ => rfl)).2 [] beacon0 8 1 0 rfl).1⟩

/-- C1 counterexample: `Document::is_valid` verifies the beacon passed
in as the current beacon, not the document's own beacon, so a document
whose own beacon would fail verification is still accepted. At the
concrete input below, `is_valid` returns true while the claim's
conjunction (with conjunct (c) on the document's own beacon) is false,
refuting the claimed equivalence. -/
theorem C1_counterexample :
    Document.is_valid hZero bvRound1 doc0 0 0 chain0 beacon0 = true
    ∧ claimC1Pred hZero bvRound1 doc0 0 0 chain0 beacon0 = false :=
  ⟨rfl, rfl⟩

/-- C1 amended: `Document::is_valid` returns true iff (a) the puzzle
verifies at the document's own difficulty over its own beacon, (b) the
difficulty equals the expected one, (c) the CURRENT beacon (the
`drand_beacon` argument) verifies under the chain's scheme id and public
key, and (d) the window is zero or the document's round plus the window
exceeds the current round. -/
theorem C1_is_valid (h : Bytes → Bytes) (bv : Beacon → SchemeId → Bytes → Bool)
    (doc : Document) (expected_difficulty : Nat) (acceptance_window : Nat)
    (chain : ChainInfo) (current_beacon : Beacon) :
    Document.is_valid h bv doc expected_difficulty acceptance_window chain
        current_beacon = true ↔
      (crypto_puzzle_verify h doc.content.data doc.drand.beacon doc.crypto_difficulty
          doc.nonce_solution = true
        ∧ doc.crypto_difficulty = expected_difficulty
        ∧ bv current_beacon chain.scheme_id chain.public_key = true
        ∧ (acceptance_window = 0
            ∨ current_beacon.round_number
                < doc.drand.beacon.round_number + acceptance_window)) := by
  unfold Document.is_valid
  split_ifs with h1 h2 h3 h4 <;> simp_all
  omega

/-- C2 counterexample: the update handler's freshness check is
`current_round - generated_in_round > acceptance_window`, with no
special case disabling it at `acceptance_window == 0`. At window 0, an
update with beacon round 5 against current round 7 is dropped unapplied,
while the claim requires it to be applied; the claimed equivalence fails
at this concrete input. -/
theorem C2_counterexample :
    ¬ ((handle_update_allowed_keys s0 u0 7 = some (applyAllowedKeysUpdate s0 u0))
        ↔ (s0.acceptance_window = 0
            ∨ 7 < u0.content.beacon.round_number + s0.acceptance_window)) := by
  decide

/-- C2 amended: when the update's beacon round is at most the fetched
current round (otherwise the subtraction underflows, see C10), the
update is applied iff `current_round - generated_in_round` is at most
the acceptance window; in particular `acceptance_window == 0` does not
disable the check but requires the rounds to be equal, and a stale
update leaves the state unchanged. -/
theorem C2_handle_update_allowed_keys (s : State) (u : Signed UpdateAllowedKeys)
    (cur : Nat) :
    (u.content.beacon.round_number ≤ cur
        ∧ cur - u.content.beacon.round_number ≤ s.acceptance_window →
      handle_update_allowed_keys s u cur = some (applyAllowedKeysUpdate s u))
    ∧ (u.content.beacon.round_number ≤ cur
        ∧ s.acceptance_window < cur - u.content.beacon.round_number →
      handle_update_allowed_keys s u cur = some s) := by
  simp only [handle_update_allowed_keys]
  constructor
  · intro h1
    split_ifs with hp hs
    · omega
    · omega
    · rfl
  · intro h1
    split_ifs with hp hs
    · omega
    · rfl
    · omega

/-- Witness for the amended C2 at concrete inputs: a round-5 update
against current round 5 with window 0 is applied. -/
theorem C2_handle_update_allowed_keys_witness :
    handle_update_allowed_keys s0 u0 5 = some (applyAllowedKeysUpdate s0 u0) :=
  (C2_handle_update_allowed_keys s0 u0 5).1 ⟨by decide, by decide⟩

/-- C10: the freshness check of `handle_update_allowed_keys` computes
`current_round - generated_in_round` as u64 subtraction, total exactly
under the precondition `generated_in_round <= current_round`; for any
update whose beacon round is strictly ahead of the fetched current
round, the underflow branch is reached and the handler panics (`none` in
the embedding) instead of accepting or rejecting the update. -/
theorem C10_handle_update_underflow (s : State) (u : Signed UpdateAllowedKeys)
    (cur : Nat) :
    (u.content.beacon.round_number ≤ cur →
      (handle_update_allowed_keys s u cur).isSome = true)
    ∧ (cur < u.content.beacon.round_number →
      handle_update_allowed_keys s u cur = none) := by
  simp only [handle_update_allowed_keys]
  constructor
  · intro h1
    split_ifs with hp hs
    · omega
    · rfl
    · rfl
  · intro h1
    split_ifs with hp
    · rfl
    · omega

/-- Witness for C10: a round-5 update against current round 5 is handled
without panicking, and against current round 3 the underflow branch is
reached. -/
theorem C10_handle_update_underflow_witness :
    (handle_update_allowed_keys s0 u0 5).isSome = true
    ∧ handle_update_allowed_keys s0 u0 3 = none :=
  ⟨(C10_handle_update_underflow s0 u0 5).1 (by decide),
    (C10_handle_update_underflow s0 u0 3).2 (by decide)⟩

/-- C3: the inbound signature-verification matrix of the deaddrop. An
UpdateAllowedKeys envelope is accepted iff an asset-owner key is
configured and `verify_with` it succeeds, and is rejected whenever none
is configured; a PublishDocument envelope is accepted via `verify()` in
Open/ReceiverRestricted mode and via `ring_verify` against the current
allowed sender ring in SenderRestricted/FullyRestricted mode; a
RetrieveDocumentIds / RetrieveDocuments / RetrieveKeys envelope is
accepted iff `verify()` or `ring_verify` succeeds. -/
theorem C3_verify_signature (rsaV : PublicKey → Bytes → CryptoSignature → Bool)
    (blsagV : BLSAGSig → Bytes → Bool) (ser : Message → Bytes) (s : State) :
    (∀ (u : UpdateAllowedKeys) (sig : Signature),
      (verify_signature rsaV blsagV ser s
            (Signed.new (Message.UpdateAllowedKeys u) sig) = some true
        ↔ ∃ k, s.asset_owner_key = some k
            ∧ Signed.verify_with rsaV ser
                (Signed.new (Message.UpdateAllowedKeys u) sig) k = true)
      ∧ verify_signature rsaV blsagV ser { s with asset_owner_key := none }
          (Signed.new (Message.UpdateAllowedKeys u) sig) = some false)
    ∧ (∀ (p : PublishDocument) (sig : Signature),
        (verify_signature rsaV blsagV ser { s with mode := .Open }
              (Signed.new (Message.PublishDocument p) sig) = some true
          ↔ Signed.verify rsaV ser (Signed.new (Message.PublishDocument p) sig) = true)
        ∧ (verify_signature rsaV blsagV ser { s with mode := .ReceiverRestricted }
              (Signed.new (Message.PublishDocument p) sig) = some true
          ↔ Signed.verify rsaV ser (Signed.new (Message.PublishDocument p) sig) = true)
        ∧ (verify_signature rsaV blsagV ser { s with mode := .SenderRestricted }
              (Signed.new (Message.PublishDocument p) sig) = some true
          ↔ Signed.ring_verify blsagV ser (Signed.new (Message.PublishDocument p) sig)
              s.state_mut.allowed_sender_ring = true)
        ∧ (verify_signature rsaV blsagV ser { s with mode := .FullyRestricted }
              (Signed.new (Message.PublishDocument p) sig) = some true
          ↔ Signed.ring_verify blsagV ser (Signed.new (Message.PublishDocument p) sig)
              s.state_mut.allowed_sender_ring = true))
    ∧ (∀ (v : RetrieveDocumentIds) (sig : Signature),
        verify_signature rsaV blsagV ser s
            (Signed.new (Message.RetrieveDocumentIds v) sig) = some true
          ↔ (Signed.verify rsaV ser (Signed.new (Message.RetrieveDocumentIds v) sig) = true
            ∨ Signed.ring_verify blsagV ser (Signed.new (Message.RetrieveDocumentIds v) sig)
                s.state_mut.allowed_sender_ring = true))
    ∧ (∀ (v : RetrieveDocuments) (sig : Signature),
        verify_signature rsaV blsagV ser s
            (Signed.new (Message.RetrieveDocuments v) sig) = some true
          ↔ (Signed.verify rsaV ser (Signed.new (Message.RetrieveDocuments v) sig) = true
            ∨ Signed.ring_verify blsagV ser (Signed.new (Message.RetrieveDocuments v) sig)
                s.state_mut.allowed_sender_ring = true))
    ∧ (∀ sig : Signature,
        verify_signature rsaV blsagV ser s
            (Signed.new Message.RetrieveKeys sig) = some true
          ↔ (Signed.verify rsaV ser (Signed.new Message.RetrieveKeys sig) = true
            ∨ Signed.ring_verify blsagV ser (Signed.new Message.RetrieveKeys sig)
                s.state_mut.allowed_sender_ring = true)) := by
  refine ⟨?_, ?_, ?_, ?_, ?_⟩
  · intro u sig
    constructor
    · cases hk : s.asset_owner_key with
      | none => simp [verify_signature, Signed.new, hk]
      | some k => simp [verify_signature, Signed.new, hk]
    · simp [verify_signature, Signed.new]
  · intro p sig
    refine ⟨?_, ?_, ?_, ?_⟩ <;> simp [verify_signature, Signed.new]
  · intro v sig
    simp [verify_signature, Signed.new]
  · intro v sig
    simp [verify_signature, Signed.new]
  · intro sig
    simp [verify_signature, Signed.new]

theorem mapLookup_insert_self {K V : Type} [DecidableEq K] (k : K) (v : V)
    (m : List (K × V)) : mapLookup k (mapInsert k v m) = some v := by
  induction m with
  | nil => simp [mapInsert, mapLookup]
  | cons kv rest ih =>
    obtain ⟨k1, v1⟩ := kv
    by_cases hk : k1 = k
    · subst hk
      simp [mapInsert, mapLookup]
    · simp [mapInsert, mapLookup, hk, ih]

theorem mapLookup_insert_ne {K V : Type} [DecidableEq K] (k k' : K) (hne : k' ≠ k)
    (v : V) (m : List (K × V)) : mapLookup k' (mapInsert k v m) = mapLookup k' m := by
  induction m with
  | nil => simp [mapInsert, mapLookup, Ne.symm hne]
  | cons kv rest ih =>
    obtain ⟨k1, v1⟩ := kv
    by_cases hk : k1 = k
    · subst hk
      simp [mapInsert, mapLookup, Ne.symm hne]
    · simp [mapInsert, mapLookup, hk, ih]

/-- C5: `publish_document` returns false and leaves the whole deaddrop
state unchanged when the document fails `is_valid`; when it passes, it
returns true and afterwards the published-documents map binds the
document's id to the signed document (overwriting any previous binding)
while every other binding and every other state field is unchanged. -/
theorem C5_publish_document (h : Bytes → Bytes) (bv : Beacon → SchemeId → Bytes → Bool)
    (s : State) (request : PublishDocument) (chain : ChainInfo) (beacon : Beacon) :
    (request.document.content.is_valid h bv s.difficulty s.acceptance_window chain
        beacon = false →
      publish_document h bv s request chain beacon = (false, s))
    ∧ (request.document.content.is_valid h bv s.difficulty s.acceptance_window chain
        beacon = true →
      (publish_document h bv s request chain beacon).1 = true
      ∧ mapLookup request.document.content.id
          (publish_document h bv s request chain beacon).2.state_mut.published_documents
          = some request.document
      ∧ (∀ k, k ≠ request.document.content.id →
          mapLookup k
              (publish_document h bv s request chain beacon).2.state_mut.published_documents
            = mapLookup k s.state_mut.published_documents)
      ∧ (publish_document h bv s request chain beacon).2.mode = s.mode
      ∧ (publish_document h bv s request chain beacon).2.private_key = s.private_key
      ∧ (publish_document h bv s request chain beacon).2.asset_owner_key
          = s.asset_owner_key
      ∧ (publish_document h bv s request chain beacon).2.difficulty = s.difficulty
      ∧ (publish_document h bv s request chain beacon).2.acceptance_window
          = s.acceptance_window
      ∧ (publish_document h bv s request chain beacon).2.state_mut.allowed_sender_ring
          = s.state_mut.allowed_sender_ring
      ∧ (publish_document h bv s request chain beacon).2.state_mut.allowed_receiver_keys
          = s.state_mut.allowed_receiver_keys
      ∧ (publish_document h bv s request chain beacon).2.state_mut.keys_update_asset_owner
          = s.state_mut.keys_update_asset_owner) := by
  constructor
  · intro hinvalid
    simp [publish_document, hinvalid]
  · intro hvalid
    refine ⟨?_, ?_, ?_, ?_, ?_, ?_, ?_, ?_, ?_, ?_, ?_⟩ <;>
      simp [publish_document, hvalid, mapLookup_insert_self]
    intro k hk
    exact mapLookup_insert_ne _ k hk _ _

/-- Witness for C5 at a concrete valid publish: difficulty 0, window 0,
an always-accepting beacon verifier, and the sample document. -/
theorem C5_publish_document_witness :
    (publish_document hZero (fun _ _ _ => true) s0
        ⟨⟨doc0, Signature.Asymmetric [] []⟩⟩ chain0 beacon0).1 = true
    ∧ mapLookup doc0.id
        (publish_document hZero (fun _ _ _ => true) s0
            ⟨⟨doc0, Signature.Asymmetric [] []⟩⟩ chain0 beacon0).2.state_mut.published_documents
        = some ⟨doc0, Signature.Asymmetric [] []⟩ :=
  ⟨((C5_publish_document hZero (fun _ _ _ => true) s0
      ⟨⟨doc0, Signature.Asymmetric [] []⟩⟩ chain0 beacon0).2 rfl).1,
    ((C5_publish_document hZero (fun _ _ _ => true) s0
      ⟨⟨doc0, Signature.Asymmetric [] []⟩⟩ chain0 beacon0).2 rfl).2.1⟩

/-- C6: for a fresh request beacon and a valid empty-data puzzle
solution, `retreive_document_ids` returns exactly the ids of the stored
documents whose round is at least `since_round`, regardless of the
request's topic; the attached update is the cached asset-owner update in
SenderRestricted/FullyRestricted modes and `none` in
Open/ReceiverRestricted modes; a stale beacon or an invalid puzzle
solution yields `none`. -/
theorem C6_retreive_document_ids (h : Bytes → Bytes) (s : State)
    (request : RetrieveDocumentIds) (beacon : Beacon) :
    ((s.acceptance_window = 0
        ∨ beacon.round_number < request.beacon.round_number + s.acceptance_window) →
      crypto_puzzle_verify h [] request.beacon s.difficulty request.nonce_solution = true →
      ∃ ids keys, retreive_document_ids h s request beacon = some (ids, keys)
        ∧ (∀ i, i ∈ ids ↔ ∃ kv, kv ∈ s.state_mut.published_documents
            ∧ (kv.2).content.id = i ∧ request.since_round ≤ i.round)
        ∧ ((s.mode = .Open ∨ s.mode = .ReceiverRestricted) → keys = none)
        ∧ ((s.mode = .SenderRestricted ∨ s.mode = .FullyRestricted) →
            keys = s.state_mut.keys_update_asset_owner))
    ∧ (s.acceptance_window ≠ 0
        ∧ request.beacon.round_number + s.acceptance_window ≤ beacon.round_number →
      retreive_document_ids h s request beacon = none)
    ∧ (crypto_puzzle_verify h [] request.beacon s.difficulty request.nonce_solution = false →
      retreive_document_ids h s request beacon = none)
    ∧ (∀ t, retreive_document_ids h s { request with topic := t } beacon
        = retreive_document_ids h s request beacon) := by
  refine ⟨?_, ?_, ?_, ?_⟩
  · intro hfresh hpuzzle
    have hcond : ¬ (s.acceptance_window ≠ 0
        ∧ request.beacon.round_number + s.acceptance_window ≤ beacon.round_number) := by
      rcases hfresh with hf | hf
      · intro hc; exact hc.1 hf
      · intro hc; omega
    refine ⟨((s.state_mut.published_documents.map Prod.snd).filter fun sd =>
        sd.content.id.round ≥ request.since_round).map (fun sd => sd.content.id),
      (match s.mode with
        | .Open | .ReceiverRestricted => none
        | .FullyRestricted | .SenderRestricted => s.state_mut.keys_update_asset_owner),
      ?_, ?_, ?_, ?_⟩
    · simp only [retreive_document_ids, hpuzzle]
      rw [if_neg (by simpa using hcond)]
      simp
    · intro i
      constructor
      · intro hi
        simp only [List.mem_map, List.mem_filter] at hi
        obtain ⟨sd, ⟨hsd, hround⟩, hid⟩ := hi
        obtain ⟨kv, hkv, hsnd⟩ := hsd
        refine ⟨kv, hkv, ?_, ?_⟩
        · rw [hsnd]; exact hid
        · subst hid
          simpa using hround
      · intro hi
        obtain ⟨kv, hkv, hid, hround⟩ := hi
        simp only [List.mem_map, List.mem_filter]
        refine ⟨kv.2, ⟨?_, ?_⟩, hid⟩
        · exact ⟨kv, hkv, rfl⟩
        · simp only [ge_iff_le, decide_eq_true_eq]
          rw [hid]
          exact hround
    · intro hmode
      rcases hmode with hm | hm <;> simp [hm]
    · intro hmode
      rcases hmode with hm | hm <;> simp [hm]
  · intro hstale
    simp only [retreive_document_ids]
    rw [if_pos]
    simp only [ne_eq, Bool.and_eq_true, decide_eq_true_eq]
    exact ⟨by simpa using hstale.1, hstale.2⟩
  · intro hpuzzle
    simp only [retreive_document_ids, hpuzzle]
    split_ifs with h1 h2
    · rfl
    · rfl
    · simp at h2
  · intro t
    simp [retreive_document_ids]

/-- Witness for C6 at a concrete fresh request (window 0, difficulty 0)
against the sample open-mode state. -/
theorem C6_retreive_document_ids_witness :
    ∃ ids keys,
      retreive_document_ids hZero s0 ⟨"t", 0, beacon0, "default", 0⟩ beacon0
          = some (ids, keys)
      ∧ (∀ i, i ∈ ids ↔ ∃ kv, kv ∈ s0.state_mut.published_documents
          ∧ (kv.2).content.id = i ∧ 0 ≤ i.round)
      ∧ ((s0.mode = .Open ∨ s0.mode = .ReceiverRestricted) → keys = none)
      ∧ ((s0.mode = .SenderRestricted ∨ s0.mode = .FullyRestricted) →
          keys = s0.state_mut.keys_update_asset_owner) :=
  (C6_retreive_document_ids hZero s0 ⟨"t", 0, beacon0, "default", 0⟩ beacon0).1
    (Or.inl rfl) rfl

theorem publish_document_frame (h : Bytes → Bytes) (bv : Beacon → SchemeId → Bytes → Bool)
    (s : State) (request : PublishDocument) (chain : ChainInfo) (beacon : Beacon) :
    ((publish_document h bv s request chain beacon).2).state_mut.allowed_sender_ring
        = s.state_mut.allowed_sender_ring
    ∧ ((publish_document h bv s request chain beacon).2).state_mut.allowed_receiver_keys
        = s.state_mut.allowed_receiver_keys
    ∧ ((publish_document h bv s request chain beacon).2).state_mut.keys_update_asset_owner
        = s.state_mut.keys_update_asset_owner := by
  simp only [publish_document]
  split_ifs <;> simp

theorem handle_update_cases (s : State) (u : Signed UpdateAllowedKeys) (cur : Nat)
    (s2 : State) (heq : handle_update_allowed_keys s u cur = some s2) :
    s2 = s ∨ s2 = applyAllowedKeysUpdate s u := by
  simp only [handle_update_allowed_keys] at heq
  split_ifs at heq
  · exact Or.inl (Option.some.inj heq).symm
  · exact Or.inr (Option.some.inj heq).symm

theorem keysInv_apply (s : State) (u : Signed UpdateAllowedKeys) :
    keysInv (applyAllowedKeysUpdate s u).state_mut := by
  intro u' hu'
  simp only [applyAllowedKeysUpdate] at hu'
  obtain rfl : u = u' := by simpa using hu'
  exact ⟨rfl, rfl⟩

/-- C9: in every state reachable from the startup state through the
deaddrop's mutators, a cached asset-owner update determines the current
ring and receiver keys exactly (they are replaced together by the
allowed-keys handler, whose only non-panicking outcomes are "unchanged"
or "all three fields replaced"), and a publish never changes any of the
three fields. -/
theorem C9_keys_update_invariant :
    (∀ (mode : ModeOfOperation) (pk : PrivateKey) (aok : Option PublicKey)
        (diff aw : Nat) (s : State),
      DeaddropReachable (initState mode pk aok diff aw) s → keysInv s.state_mut)
    ∧ (∀ (h : Bytes → Bytes) (bv : Beacon → SchemeId → Bytes → Bool) (s : State)
        (request : PublishDocument) (chain : ChainInfo) (beacon : Beacon),
        ((publish_document h bv s request chain beacon).2).state_mut.allowed_sender_ring
            = s.state_mut.allowed_sender_ring
        ∧ ((publish_document h bv s request chain beacon).2).state_mut.allowed_receiver_keys
            = s.state_mut.allowed_receiver_keys
        ∧ ((publish_document h bv s request chain beacon).2).state_mut.keys_update_asset_owner
            = s.state_mut.keys_update_asset_owner)
    ∧ (∀ (s : State) (u : Signed UpdateAllowedKeys) (cur : Nat) (s2 : State),
        handle_update_allowed_keys s u cur = some s2 →
        s2 = s ∨ s2 = applyAllowedKeysUpdate s u) := by
  refine ⟨?_, publish_document_frame, handle_update_cases⟩
  intro mode pk aok diff aw s hreach
  induction hreach with
  | refl =>
    intro u hu
    simp [initState, initStateMut] at hu
  | @step b c hr hstep ih =>
    cases hstep with
    | publish h bv request chain beacon =>
      intro u hu
      obtain ⟨hring, hrecv, hkeys⟩ := publish_document_frame h bv b request chain beacon
      rw [hkeys] at hu
      obtain ⟨h1, h2⟩ := ih u hu
      exact ⟨by rw [hring]; exact h1, by rw [hrecv]; exact h2⟩
    | update u cur s1 s2 heq =>
      rcases handle_update_cases b u cur c heq with he | he
      · subst he; exact ih
      · subst he; exact keysInv_apply b u

/-- Witness for C9: the startup state itself is reachable and satisfies
the invariant. -/
theorem C9_keys_update_invariant_witness :
    keysInv (initState .Open [] none 0 0).state_mut :=
  C9_keys_update_invariant.1 .Open [] none 0 0 (initState .Open [] none 0 0)
    DeaddropReachable.refl

theorem insertIdx_perm {α : Type} (a : α) :
    ∀ (n : Nat) (l : List α), n ≤ l.length → (l.insertIdx n a).Perm (a :: l)
  | 0, l, _ => by simp
  | n + 1, [], hle => by simp at hle
  | n + 1, b :: l, hle => by
    rw [List.insertIdx_succ_cons]
    exact ((insertIdx_perm a n l (Nat.le_of_succ_le_succ hle)).cons b).trans
      (List.Perm.swap a b l)

theorem cons_filter_ne_perm (a : RingPublicKey) :
    ∀ l : List RingPublicKey, l.count a = 1 → (a :: l.filter fun x => x ≠ a).Perm l
  | [], hcount => by simp at hcount
  | b :: l, hcount => by
    by_cases hb : b = a
    · subst hb
      have hzero : l.count b = 0 := by
        have hself := List.count_cons_self b l
        omega
      have hnotmem : b ∉ l := List.count_eq_zero.mp hzero
      have hfilter : ((b :: l).filter fun x => x ≠ b) = l := by
        rw [List.filter_cons_of_neg (by simp)]
        exact List.filter_eq_self.mpr fun x hx => by
          simp only [ne_eq, decide_eq_true_eq]
          intro hxb
          exact hnotmem (hxb ▸ hx)
      rw [hfilter]
    · have h2 : l.count a = 1 := by
        have hcc := List.count_cons a b l
        have hab : (b == a) = false := beq_eq_false_iff_ne.mpr hb
        rw [hcc, hab] at hcount
        simpa using hcount
      have ih := cons_filter_ne_perm a l h2
      have hfb : ((b :: l).filter fun x => x ≠ a) = b :: (l.filter fun x => x ≠ a) := by
        simp [List.filter_cons, hb]
      rw [hfb]
      exact (List.Perm.swap b a _).trans (ih.cons b)

/-- C7 counterexample: `ring_verify`'s ring pre-check is only
"equal length and every verification-ring key occurs in the embedded
ring"; a verification ring with a duplicated key can pass it against an
embedded ring that is NOT a permutation of it, after which the BLSAG
primitive (which never looks at the verification ring) decides alone. At
the concrete input below the embedded ring is `[[1],[2],[3]]`, the
verification ring `[[1],[1],[2]]` is not a permutation of it, yet
verification succeeds. -/
theorem C7_counterexample :
    ring_verify (fun _ _ => true) (Ring.from [[1], [1], [2]]) []
        ⟨[], [], [[1], [2], [3]], []⟩ = true
    ∧ ¬ List.Perm [[1], [1], [2]]
        (BLSAGSig.ring ⟨[], [], [[1], [2], [3]], []⟩) := by
  constructor
  · rfl
  · intro hp
    have hc := hp.count_eq [3]
    simp at hc

/-- C7 amended: under the black-box BLSAG contracts (the signing
primitive embeds the signer's public key at the secret index and its
verification accepts its own signatures), `ring_verify` accepts
`ring_sign` output whenever the signer's public key occurs exactly once
in a ring of at least two keys; and `ring_verify` rejects every
verification ring of different size than the signature's embedded ring
or containing a key absent from it. (For rings with duplicated keys the
pre-check is weaker than a permutation check, see the counterexample.) -/
theorem C7_ring_sign_verify (ringPub : RingPrivateKey → RingPublicKey)
    (blsagSign : RingPrivateKey → List RingPublicKey → Nat → Bytes → BLSAGSig)
    (blsagVerify : BLSAGSig → Bytes → Bool)
    (hsignring : ∀ k ring idx data,
      (blsagSign k ring idx data).ring = ring.insertIdx idx (ringPub k))
    (hcomplete : ∀ k ring idx data, idx ≤ ring.length →
      blsagVerify (blsagSign k ring idx data) data = true) :
    (∀ (key : RingPrivateKey) (ring : Ring) (data : Bytes),
      ring.keys.count (ringPub key) = 1 → 2 ≤ ring.keys.length →
      ring_verify blsagVerify ring data (ring_sign ringPub blsagSign key ring data) = true)
    ∧ (∀ (ring : Ring) (data : Bytes) (sig : BLSAGSig),
        ring.keys.length ≠ sig.ring.length ∨ (∃ pk, pk ∈ ring.keys ∧ pk ∉ sig.ring) →
        ring_verify blsagVerify ring data sig = false) := by
  constructor
  · intro key ring data hcount hlen2
    have hperm1 : ((ringPub key) :: (ring.keys.filter fun x => x ≠ ringPub key)).Perm
        ring.keys := cons_filter_ne_perm (ringPub key) ring.keys hcount
    have hflen : (ring.keys.filter fun x => x ≠ ringPub key).length + 1
        = ring.keys.length := by
      have := hperm1.length_eq
      simpa using this
    have hfl1 : 1 ≤ (ring.keys.filter fun x => x ≠ ringPub key).length := by omega
    have hsig : (ring_sign ringPub blsagSign key ring data).ring
        = (ring.keys.filter fun x => x ≠ ringPub key).insertIdx 1 (ringPub key) := by
      simp only [ring_sign, SECRET_INDEX]
      exact hsignring key _ 1 data
    have hperm : ((ring_sign ringPub blsagSign key ring data).ring).Perm ring.keys := by
      rw [hsig]
      exact (insertIdx_perm (ringPub key) 1 _ hfl1).trans hperm1
    simp only [ring_verify]
    rw [if_neg]
    · simp only [ring_sign, SECRET_INDEX]
      exact hcomplete key _ 1 data hfl1
    · simp only [Bool.or_eq_true, Bool.not_eq_true, not_or, List.all_eq_true]
      constructor
      · simp [hperm.length_eq]
      · have hall : (ring.keys.all fun pk =>
            ((ring_sign ringPub blsagSign key ring data).ring).contains pk) = true := by
          rw [List.all_eq_true]
          intro pk hpk
          simpa [List.elem_iff] using hperm.mem_iff.mpr hpk
        rw [hall]
        rfl
  · intro ring data sig hbad
    simp only [ring_verify]
    rw [if_pos]
    rcases hbad with hlen | ⟨pk, hmem, hnot⟩
    · simp [hlen]
    · rw [Bool.or_eq_true]
      right
      have hall : (ring.keys.all fun x => sig.ring.contains x) = false := by
        rw [List.all_eq_false]
        refine ⟨pk, hmem, ?_⟩
        intro hc
        exact hnot (by simpa [List.elem_iff] using hc)
      rw [hall]
      rfl

/-- Witness for the amended C7 at concrete instances of the BLSAG
primitives (sign embeds the signer key at the secret index, verify
accepts everything): a two-key ring round-trips, and a ring of the wrong
size is rejected. -/
theorem C7_ring_sign_verify_witness :
    ring_verify (fun _ _ => true) (Ring.from [[5], [7]]) []
        (ring_sign (fun k => k)
          (fun k ring idx _ => ⟨[], [], ring.insertIdx idx k, []⟩)
          [5] (Ring.from [[5], [7]]) []) = true
    ∧ ring_verify (fun _ _ => true) (Ring.from [[5]]) [] ⟨[], [], [[9], [2]], []⟩ = false :=
  ⟨(C7_ring_sign_verify (fun k => k)
      (fun k ring idx _ => ⟨[], [], ring.insertIdx idx k, []⟩) (fun _ _ => true)
      (fun _ _ _ _ => rfl) (fun _ _ _ _ _ => rfl)).1
      [5] (Ring.from [[5], [7]]) [] (by decide) (by decide),
    (C7_ring_sign_verify (fun k => k)
      (fun k ring idx _ => ⟨[], [], ring.insertIdx idx k, []⟩) (fun _ _ => true)
      (fun _ _ _ _ => rfl) (fun _ _ _ _ _ => rfl)).2
      (Ring.from [[5]]) [] ⟨[], [], [[9], [2]], []⟩ (Or.inl (by decide))⟩

theorem find?_pair_map (t : PublicKey) (f : PublicKey → Bytes) :
    ∀ l : List PublicKey,
      ((l.map fun k => DocumentKeyPair.mk k (f k)).find? fun p => p.public_key = t)
        = (l.find? fun k => k = t).map fun k => DocumentKeyPair.mk k (f k) := by
  intro l
  induction l with
  | nil => rfl
  | cons k l ih =>
    by_cases hk : k = t
    · subst hk
      rw [List.map_cons, List.find?_cons_of_pos _ (by simp),
        List.find?_cons_of_pos _ (by simp)]
      rfl
    · rw [List.map_cons, List.find?_cons_of_neg _ (by simpa using hk),
        List.find?_cons_of_neg _ (by simpa using hk)]
      exact ih

theorem find?_eq_self (t : PublicKey) :
    ∀ l : List PublicKey, t ∈ l → (l.find? fun k => k = t) = some t
  | [], hmem => by simp at hmem
  | k :: l, hmem => by
    by_cases hk : k = t
    · subst hk
      rw [List.find?_cons_of_pos _ (by simp)]
    · have htl : t ∈ l := by
        rcases List.mem_cons.mp hmem with he | htl
        · exact absurd he.symm hk
        · exact htl
      rw [List.find?_cons_of_neg _ (by simpa using hk)]
      exact find?_eq_self t l htl

theorem find?_eq_none_of_not_mem (t : PublicKey) (l : List PublicKey)
    (hmem : t ∉ l) : (l.find? fun k => k = t) = none := by
  rw [List.find?_eq_none]
  intro x hx
  simp only [decide_eq_true_eq]
  intro hxt
  exact hmem (hxt ▸ hx)

/-- C8: a document built by `Document::encrypted` carries the AES-GCM
encryption of the plaintext under the fresh symmetric key together with,
for each receiver public key, that symmetric key RSA-wrapped and paired
with the key; `decrypt` with a private key whose public key is among the
pairs returns true and replaces the content with the plaintext, and with
any other private key returns false leaving the document unchanged. The
RSA and AES primitives are black boxes constrained only by their
round-trip contracts. -/
theorem C8_document_encrypted_decrypt (h : Bytes → Bytes)
    (rsaPub : PrivateKey → PublicKey) (rsaEncrypt : PublicKey → Bytes → Bytes)
    (rsaDecrypt : PrivateKey → Bytes → Bytes)
    (symEncrypt : SymmetricKey → Bytes → SymmetricData)
    (symDecrypt : SymmetricKey → SymmetricData → Bytes)
    (hrsa : ∀ priv m, rsaDecrypt priv (rsaEncrypt (rsaPub priv) m) = m)
    (hsym : ∀ k m, symDecrypt k (symEncrypt k m) = m)
    (topic : String) (m : Bytes) (difficulty : Nat) (pkh : Sha256)
    (receiver_keys : List PublicKey) (drandv : DocumentDrand) (skey : SymmetricKey)
    (fuel : Nat) (doc : Document)
    (henc : Document.encrypted h rsaEncrypt symEncrypt topic m difficulty pkh
        receiver_keys drandv skey fuel = some doc) :
    doc.content = DocumentContent.Encrypted (symEncrypt skey m)
        (receiver_keys.map fun k => DocumentKeyPair.mk k (rsaEncrypt k skey))
    ∧ (∀ priv : PrivateKey, rsaPub priv ∈ receiver_keys →
        Document.decrypt rsaPub rsaDecrypt symDecrypt doc priv
          = (true, { doc with content := DocumentContent.Plaintext m }))
    ∧ (∀ priv : PrivateKey, rsaPub priv ∉ receiver_keys →
        Document.decrypt rsaPub rsaDecrypt symDecrypt doc priv = (false, doc)) := by
  simp only [Document.encrypted, Document.new, Option.map_eq_some'] at henc
  obtain ⟨sol, hsol, hdoc⟩ := henc
  have hcontent : doc.content = DocumentContent.Encrypted (symEncrypt skey m)
      (receiver_keys.map fun k => DocumentKeyPair.mk k (rsaEncrypt k skey)) := by
    rw [← hdoc]
  refine ⟨hcontent, ?_, ?_⟩
  · intro priv hmem
    simp only [Document.decrypt, hcontent]
    rw [find?_pair_map, find?_eq_self _ _ hmem]
    simp only [Option.map_some']
    rw [hrsa, hsym]
  · intro priv hmem
    simp only [Document.decrypt, hcontent]
    rw [find?_pair_map, find?_eq_none_of_not_mem _ _ hmem]
    simp only [Option.map_none']

/-- Witness for C8 at concrete invertible primitive instances (identity
RSA wrapping, nonce-free symmetric encryption): the encrypted document
over plaintext `[1, 2]` for receiver `[9]` decrypts back to `[1, 2]`
with receiver key `[9]` and is skipped with key `[4]`. -/
theorem C8_document_encrypted_decrypt_witness :
    Document.decrypt (fun k => k) (fun _ c => c) (fun _ d => d.data)
        ⟨⟨5, List.replicate 32 0, []⟩, "t",
          DocumentContent.Encrypted ⟨[], [1, 2]⟩ [⟨[9], [7]⟩], 0, 0,
          ⟨"default", ⟨5, [], [], []⟩, SchemeId.PedersenBlsUnchained⟩⟩ [9]
      = (true, ⟨⟨5, List.replicate 32 0, []⟩, "t",
          DocumentContent.Plaintext [1, 2], 0, 0,
          ⟨"default", ⟨5, [], [], []⟩, SchemeId.PedersenBlsUnchained⟩⟩)
    ∧ Document.decrypt (fun k => k) (fun _ c => c) (fun _ d => d.data)
        ⟨⟨5, List.replicate 32 0, []⟩, "t",
          DocumentContent.Encrypted ⟨[], [1, 2]⟩ [⟨[9], [7]⟩], 0, 0,
          ⟨"default", ⟨5, [], [], []⟩, SchemeId.PedersenBlsUnchained⟩⟩ [4]
      = (false, ⟨⟨5, List.replicate 32 0, []⟩, "t",
          DocumentContent.Encrypted ⟨[], [1, 2]⟩ [⟨[9], [7]⟩], 0, 0,
          ⟨"default", ⟨5, [], [], []⟩, SchemeId.PedersenBlsUnchained⟩⟩) :=
  ⟨(C8_document_encrypted_decrypt hZero (fun k => k) (fun _ m => m)
      (fun _ c => c) (fun _ m => ⟨[], m⟩) (fun _ d => d.data)
      (fun _ _ => rfl) (fun _ _ => rfl) "t" [1, 2] 0 [] [[9]]
      ⟨"default", ⟨5, [], [], []⟩, SchemeId.PedersenBlsUnchained⟩ [7] 1 _
      rfl).2.1 [9] (by decide),
    (C8_document_encrypted_decrypt hZero (fun k => k) (fun _ m => m)
      (fun _ c => c) (fun _ m => ⟨[], m⟩) (fun _ d => d.data)
      (fun _ _ => rfl) (fun _ _ => rfl) "t" [1, 2] 0 [] [[9]]
      ⟨"default", ⟨5, [], [], []⟩, SchemeId.PedersenBlsUnchained⟩ [7] 1 _
      rfl).2.2 [4] (by decide)⟩

end Anonycast
